import Mathlib

/-!
Shallow embedding of the Pharmalink authentication/authorization core:
the Mongoose `User` model with its pre-validate and pre-save hooks
(src/unnamed/part_007), the auth routes (src/server/routes/auth.js), the
admin routes (src/server/routes/admin.js), the auth middleware
(src/server/middleware/auth.js) and the `requirePermission` middleware
(src/server/models/SystemSettings.js).

Conventions of the embedding:
- the database is a list of users; `findOne`/`findById` are list searches;
- bcrypt is abstracted by an injective-by-construction hash function whose
  output starts with "$2" (as real bcrypt digests do, which the pre-save
  hook inspects via `password.startsWith('$2')`);
- JWT signing is abstracted by pairing the secret with the claims, so a
  signature check is equality with the pair (unforgeability assumption);
- timestamps are naturals (seconds); `new Date()` is a `now` parameter;
- Mongoose's `isModified(path)` is modelled by `SaveCtx` flags, computed
  at each call site as "the route assigned a value different from the
  stored one" (Mongoose marks a path modified only when the assigned
  value differs from the prior one).
-/

namespace Pharmalink

/-- Role enum of the user schema: ['user', 'vendor', 'admin', 'superadmin']. -/
inductive Role
  | user
  | vendor
  | admin
  | superadmin
deriving DecidableEq, Repr

/-- Status enum of the user schema: ['active', 'inactive', 'suspended', 'pending']. -/
inductive Status
  | active
  | inactive
  | suspended
  | pending
deriving DecidableEq, Repr

def Role.str : Role → String
  | .user => "user"
  | .vendor => "vendor"
  | .admin => "admin"
  | .superadmin => "superadmin"

def Status.str : Status → String
  | .active => "active"
  | .inactive => "inactive"
  | .suspended => "suspended"
  | .pending => "pending"

/-- The `permissions` sub-document of the user schema. -/
structure Permissions where
  manageUsers : Bool
  manageProducts : Bool
  manageOrders : Bool
  manageSettings : Bool
  promoteUsers : Bool
  viewAnalytics : Bool
  managePermissions : Bool
deriving DecidableEq, Repr

/-- Schema defaults of the `permissions` sub-document: every flag false. -/
def Permissions.defaults : Permissions :=
  ⟨false, false, false, false, false, false, false⟩

/-- The role switch of `userSchema.pre('save')`: the permission table the
hook assigns when the role was modified. The `default` case of the switch
(role 'user') assigns all-false. -/
def rolePermissions : Role → Permissions
  | .vendor => ⟨false, true, true, false, false, true, false⟩
  | .admin => ⟨true, true, true, true, false, true, false⟩
  | .superadmin => ⟨true, true, true, true, true, true, true⟩
  | .user => ⟨false, false, false, false, false, false, false⟩

/-- The permission names, used as keys by `requirePermission`. -/
inductive Permission
  | manageUsers
  | manageProducts
  | manageOrders
  | manageSettings
  | promoteUsers
  | viewAnalytics
  | managePermissions
deriving DecidableEq, Repr

/-- Dynamic key lookup `permissions[permission]`. -/
def Permissions.get (p : Permissions) : Permission → Bool
  | .manageUsers => p.manageUsers
  | .manageProducts => p.manageProducts
  | .manageOrders => p.manageOrders
  | .manageSettings => p.manageSettings
  | .promoteUsers => p.promoteUsers
  | .viewAnalytics => p.viewAnalytics
  | .managePermissions => p.managePermissions

/-- The `storeDetails` sub-document of the user schema. -/
structure StoreDetails where
  storeName : String
  description : String
  address : String
  phone : String
  logo : String
  active : Bool
deriving DecidableEq, Repr

/-- One entry of `statusHistory`. The status field is a string because the
promote route pushes the non-enum string `Role changed to <role>` through
`findByIdAndUpdate`, which bypasses schema validation. -/
structure StatusEntry where
  status : String
  reason : Option String
  timestamp : Nat
  updatedBy : Option Nat
deriving DecidableEq, Repr

/-- A document of the `User` collection. -/
structure User where
  id : Nat
  name : String
  email : String
  password : String
  role : Role
  storeDetails : Option StoreDetails
  permissions : Permissions
  status : Status
  statusHistory : List StatusEntry
  lastLogin : Nat
deriving DecidableEq, Repr

abbrev Db := List User

/-- Character-wise model of JS `toLowerCase()` (kernel-reducible). -/
def jsToLower (s : String) : String := ⟨s.toList.map Char.toLower⟩

/-- Character-wise model of JS `trim()` (kernel-reducible). -/
def jsTrim (s : String) : String :=
  ⟨((s.toList.dropWhile Char.isWhitespace).reverse.dropWhile Char.isWhitespace).reverse⟩

/-- Character-wise model of JS `startsWith` (kernel-reducible). -/
def strStartsWith (s p : String) : Bool := p.toList.isPrefixOf s.toList

/-- Character-wise model of JS `includes` for one character. -/
def strContains (s : String) (c : Char) : Bool := s.toList.contains c

/-- `User.findOne({email: e.toLowerCase()})`. -/
def findByEmail (db : Db) (e : String) : Option User :=
  db.find? (fun u => u.email = jsToLower e)

/-- `User.findById(i)`. -/
def findById (db : Db) (i : Nat) : Option User :=
  db.find? (fun u => u.id = i)

/-- Persisting a saved document back into the collection. -/
def updateById (db : Db) (u : User) : Db :=
  db.map (fun v => if v.id = u.id then u else v)

/-- `User.findByIdAndDelete(i)`. -/
def deleteById (db : Db) (i : Nat) : Db :=
  db.filter (fun u => u.id ≠ i)

/-- `(u.storeDetails?.active)` coerced to a boolean. -/
def storeActive (u : User) : Bool :=
  (u.storeDetails.map (fun sd => sd.active)).getD false

/-- Abstraction of `bcrypt.hash(pw, salt)`: a digest starting with "$2",
as the pre-save hook's already-hashed check expects. -/
def bcryptHash (pw : String) : String :=
  "$2b$10$" ++ pw

/-- Abstraction of `bcrypt.compare(pw, stored)`. -/
def bcryptCompare (pw stored : String) : Bool :=
  stored == bcryptHash pw

/-- System log levels: ['info', 'warning', 'error']. -/
inductive LogLevel
  | info
  | warning
  | error
deriving DecidableEq, Repr

/-- A `SystemLog` document (the fields the modelled routes write). -/
structure LogEntry where
  level : LogLevel
  message : String
  action : Option String
  userRef : Option Nat
deriving DecidableEq, Repr

/-! ## Mongoose save pipeline: pre('validate') and pre('save') hooks -/

/-- Which paths Mongoose considers modified for a given `save()` call,
plus the document-level `$skipMiddleware` flag set by the register route. -/
structure SaveCtx where
  isNew : Bool
  modifiedPassword : Bool
  modifiedRole : Bool
  modifiedStatus : Bool
  modifiedStore : Bool
  skipMiddleware : Bool
deriving DecidableEq, Repr

/-- `validateStoreDetails`: requires a store sub-document whose four
required fields are non-empty after trimming. -/
def validateStoreDetails (u : User) : Except String Unit :=
  if u.role = .vendor then
    match u.storeDetails with
    | none => .error "Store details are required for vendor accounts"
    | some sd =>
      if jsTrim sd.storeName = "" then .error "storeName is required for store details"
      else if jsTrim sd.description = "" then .error "description is required for store details"
      else if jsTrim sd.address = "" then .error "address is required for store details"
      else if jsTrim sd.phone = "" then .error "phone is required for store details"
      else .ok ()
  else .ok ()

/-- `userSchema.pre('validate')`: store-details validation for vendors on
creation, role change or store change. -/
def preValidate (ctx : SaveCtx) (u : User) : Except String Unit :=
  if u.role = .vendor ∧ (ctx.isNew ∨ ctx.modifiedRole ∨ ctx.modifiedStore) then
    validateStoreDetails u
  else .ok ()

/-- The password branch of `userSchema.pre('save')`. On a modified
password the hook `return next()`s early — aborting the REST of the hook
body (role derivation and status tracking) — when the password is absent
or already a bcrypt digest ("$2" check); otherwise it hashes and falls
through. The boolean is that early return. -/
def hashStep (ctx : SaveCtx) (u : User) : User × Bool :=
  if ctx.modifiedPassword then
    if u.password = "" then (u, true)
    else if strStartsWith u.password "$2" then (u, true)
    else ({ u with password := bcryptHash u.password }, false)
  else (u, false)

/-- The role-based branch of `userSchema.pre('save')`: when the role was
modified (or a vendor document is new), re-derive the permission table;
the vendor case additionally requires store details with a store name. -/
def roleStep (ctx : SaveCtx) (u : User) : Except String User :=
  if ctx.modifiedRole ∨ (u.role = .vendor ∧ ctx.isNew) then
    if u.role = .vendor then
      if (u.storeDetails.map (fun sd => !(sd.storeName == ""))).getD false then
        .ok { u with permissions := rolePermissions .vendor }
      else .error "Store details are required for vendor accounts"
    else .ok { u with permissions := rolePermissions u.role }
  else .ok u

/-- The status-tracking step of `userSchema.pre('save')`: when the status
was modified, unshift a bare history entry (status and timestamp only). -/
def statusStep (ctx : SaveCtx) (now : Nat) (u : User) : User :=
  if ctx.modifiedStatus then
    { u with statusHistory := ⟨u.status.str, none, now, none⟩ :: u.statusHistory }
  else u

/-- `doc.save()`: run the validate hook, then the pre-save hook.
`$skipMiddleware` short-circuits the whole pre-save body (hashing,
permission derivation and status tracking) but not the validate hook;
the password branch's early `return next()` likewise skips the role and
status steps. -/
def saveUser (ctx : SaveCtx) (now : Nat) (u : User) : Except String User :=
  match preValidate ctx u with
  | .error e => .error e
  | .ok _ =>
    if ctx.skipMiddleware then .ok u
    else if (hashStep ctx u).2 then .ok (hashStep ctx u).1
    else
      match roleStep ctx (hashStep ctx u).1 with
      | .error e => .error e
      | .ok u2 => .ok (statusStep ctx now u2)

/-! ## Token issuer (generateTokens in routes/auth.js) and JWT verification -/

/-- Access token claims: `{ userId, email, role }` plus `iat`/`exp` added
by `jwt.sign` with `expiresIn: '1h'`. -/
structure AccessClaims where
  userId : Nat
  email : String
  role : Role
  iat : Nat
  exp : Nat
deriving DecidableEq, Repr

/-- Refresh token claims: `{ userId, tokenVersion }` plus `iat`/`exp`
added by `jwt.sign` with `expiresIn: '7d'`. -/
structure RefreshClaims where
  userId : Nat
  tokenVersion : Nat
  iat : Nat
  exp : Nat
deriving DecidableEq, Repr

/-- A signed access token. The signature is abstracted as the pair of the
signing secret and the signed claims: forging it requires the secret. -/
structure SignedAccess where
  claims : AccessClaims
  sig : String × AccessClaims
deriving DecidableEq, Repr

structure SignedRefresh where
  claims : RefreshClaims
  sig : String × RefreshClaims
deriving DecidableEq, Repr

structure Tokens where
  accessToken : SignedAccess
  refreshToken : SignedRefresh
deriving DecidableEq, Repr

/-- `generateTokens(userId, email, role)`: access token with 1-hour expiry
(3600 s), refresh token with 7-day expiry (604800 s); the refresh token's
`tokenVersion` is `Date.now()`. -/
def generateTokens (secret : String) (now : Nat) (userId : Nat) (email : String)
    (role : Role) : Tokens :=
  let ac : AccessClaims := ⟨userId, email, role, now, now + 3600⟩
  let rc : RefreshClaims := ⟨userId, now, now, now + 604800⟩
  ⟨⟨ac, (secret, ac)⟩, ⟨rc, (secret, rc)⟩⟩

inductive TokenErr
  | expired
  | invalid
deriving DecidableEq, Repr

/-- `jwt.verify(token, secret)` at clock time `now`: the signature is
checked first; then the token is expired when the clock has reached `exp`
(jsonwebtoken throws `TokenExpiredError` when `clockTimestamp >= exp`). -/
def verifyAccess (secret : String) (now : Nat) (t : SignedAccess) :
    Except TokenErr AccessClaims :=
  if t.sig ≠ (secret, t.claims) then .error .invalid
  else if t.claims.exp ≤ now then .error .expired
  else .ok t.claims

/-! ## Auth middleware (middleware/auth.js) -/

/-- The `req.user` object the auth middleware attaches. -/
structure ReqUser where
  id : Nat
  email : String
  role : Role
deriving DecidableEq, Repr

/-- A failure response of the auth middleware: status code, message, and
the `needsRefresh` flag. -/
structure AuthFailure where
  status : Nat
  message : String
  needsRefresh : Bool
deriving DecidableEq, Repr

/-- The `auth` middleware: extract the bearer token, verify it, re-resolve
the account, and attach `req.user`; `TokenExpiredError` alone sets
`needsRefresh: true`. -/
def authMiddleware (secret : String) (now : Nat) (db : Db)
    (header : Option SignedAccess) : Except AuthFailure ReqUser :=
  match header with
  | none => .error ⟨401, "No token, authorization denied", false⟩
  | some t =>
    match verifyAccess secret now t with
    | .error .expired => .error ⟨401, "Token has expired", true⟩
    | .error .invalid => .error ⟨401, "Token is not valid", false⟩
    | .ok c =>
      match findById db c.userId with
      | none => .error ⟨401, "Token is not valid - user not found", false⟩
      | some u => .ok ⟨u.id, u.email, u.role⟩

/-- `requireAdmin` (middleware/auth.js): the re-resolved account's role
must be admin or superadmin. -/
def isAdminRole (r : Role) : Bool :=
  r = Role.admin ∨ r = Role.superadmin

/-! ## requirePermission (models/SystemSettings.js) -/

/-- The request identity `requirePermission` reads: its role and, when the
upstream middleware attached one, the stored permission table
(`req.user.permissions` may be absent, hence optional). -/
structure PermReqUser where
  id : Nat
  role : Role
  permissions : Option Permissions
deriving DecidableEq, Repr

/-- Outcome of the `requirePermission(permission)` middleware. -/
inductive PermRes
  | unauthenticated
  | pass
  | forbidden (missingPermission : Permission) (currentRole : Role)
deriving DecidableEq, Repr

/-- `requirePermission(permission)`: 401 without a user; pass for
superadmin or when `req.user.permissions[permission]` is truthy; else 403
carrying the missing permission and current role. -/
def requirePermission (p : Permission) (ru : Option PermReqUser) : PermRes :=
  match ru with
  | none => .unauthenticated
  | some u =>
    if u.role = .superadmin ∨ ((u.permissions.map (fun t => t.get p)).getD false) then
      .pass
    else
      .forbidden p u.role

def PermRes.statusCode : PermRes → Nat
  | .unauthenticated => 401
  | .pass => 200
  | .forbidden _ _ => 403

/-! ## POST /auth/register -/

/-- The zod `storeDetailsSchema` input. -/
structure StoreInput where
  storeName : String
  description : String
  address : String
  phone : String
  logo : Option String
deriving DecidableEq, Repr

/-- The zod `registerSchema` input (role is one of 'user' | 'vendor' by
the zod enum; other role strings fail validation upstream). -/
structure RegisterInput where
  name : String
  email : String
  password : String
  role : Role
  storeDetails : Option StoreInput
deriving DecidableEq, Repr

/-- Abstraction of zod's `.email()` format check (the claims settled here
do not depend on the exact accepted language). -/
def zodEmailOk (s : String) : Bool :=
  strContains s '@'

def storeInputOk (s : StoreInput) : Bool :=
  s.storeName.length ≥ 1 ∧ s.description.length ≥ 1 ∧
    s.address.length ≥ 1 ∧ s.phone.length ≥ 1

/-- `registerSchema.parse` succeeding: field constraints plus the refine
rule that vendors must supply store details. -/
def registerValid (i : RegisterInput) : Bool :=
  i.name.length ≥ 2 ∧ zodEmailOk i.email ∧ i.password.length ≥ 6 ∧
    (i.role = Role.user ∨ i.role = Role.vendor) ∧
    ((i.storeDetails.map storeInputOk).getD true) ∧
    (i.role = Role.vendor → i.storeDetails.isSome)

inductive RegisterRes
  | validationFailed
  | emailExists
  | created (user : User) (tokens : Tokens)
  | serverError (msg : String)
deriving DecidableEq, Repr

def RegisterRes.statusCode : RegisterRes → Nat
  | .validationFailed => 400
  | .emailExists => 409
  | .created _ _ => 201
  | .serverError _ => 500

/-- POST /auth/register: validate, reject duplicate email, hash the
password, build the user (vendor status 'pending', store `active: false`,
schema-default permissions), and save with `$skipMiddleware = true`. -/
def register (secret : String) (now : Nat) (nextId : Nat) (db : Db)
    (i : RegisterInput) : RegisterRes × Db :=
  if ¬ registerValid i then (.validationFailed, db)
  else
    match findByEmail db i.email with
    | some _ => (.emailExists, db)
    | none =>
      let hashed := bcryptHash i.password
      let store : Option StoreDetails :=
        if i.role = Role.vendor then
          i.storeDetails.map (fun s =>
            ⟨jsTrim s.storeName, jsTrim s.description, jsTrim s.address,
              jsTrim s.phone, s.logo.getD "", false⟩)
        else none
      let u : User :=
        { id := nextId, name := i.name, email := jsToLower i.email,
          password := hashed, role := i.role, storeDetails := store,
          permissions := Permissions.defaults,
          status := if i.role = Role.vendor then Status.pending else Status.active,
          statusHistory := [], lastLogin := now }
      let ctx : SaveCtx :=
        { isNew := true, modifiedPassword := true, modifiedRole := true,
          modifiedStatus := true, modifiedStore := store.isSome,
          skipMiddleware := true }
      match saveUser ctx now u with
      | .error e => (.serverError e, db)
      | .ok saved =>
        (.created saved (generateTokens secret now saved.id saved.email saved.role),
          saved :: db)

/-! ## POST /auth/login -/

structure LoginInput where
  email : String
  password : String
  role : Option Role
deriving DecidableEq, Repr

inductive LoginRes
  | notFound
  | adminDenied
  | roleMismatch (requested : Role)
  | invalidPassword
  | vendorPending (status : Status)
  | storeInactive
  | success (user : User) (tokens : Tokens)
  | serverError (msg : String)
deriving DecidableEq, Repr

/-- The externally observable (HTTP status, message) of a login outcome. -/
def loginResponse : LoginRes → Nat × String
  | .notFound => (400, "Account not found with this email")
  | .adminDenied => (403, "Access denied. Admin credentials required.")
  | .roleMismatch r => (403, "Invalid credentials for " ++ r.str ++ " login")
  | .invalidPassword => (400, "Invalid password")
  | .vendorPending _ => (403, "Your vendor account is pending approval")
  | .storeInactive => (403, "Your store is not yet activated")
  | .success _ _ => (200, "")
  | .serverError m => (500, m)

/-- POST /auth/login: lookup by email, role-match gate (expected 'admin'
also accepts superadmin), bcrypt password check (failure logs a warning),
vendor approval gates (status, then store activation), then tokens,
last-login update and an info log. -/
def login (secret : String) (now : Nat) (db : Db) (i : LoginInput) :
    LoginRes × Db × List LogEntry :=
  match findByEmail db i.email with
  | none => (.notFound, db, [])
  | some u =>
    let roleFail : Option LoginRes :=
      match i.role with
      | some Role.admin =>
        if u.role = Role.admin ∨ u.role = Role.superadmin then none
        else some .adminDenied
      | some r => if u.role = r then none else some (.roleMismatch r)
      | none => none
    match roleFail with
    | some f => (f, db, [])
    | none =>
      if ¬ bcryptCompare i.password u.password then
        (.invalidPassword, db,
          [⟨.warning, "Failed login attempt", some "LOGIN_FAILED", none⟩])
      else if u.role = Role.vendor ∧ u.status ≠ Status.active then
        (.vendorPending u.status, db, [])
      else if u.role = Role.vendor ∧ ¬ storeActive u then
        (.storeInactive, db, [])
      else
        let toks := generateTokens secret now u.id u.email u.role
        let u1 := { u with lastLogin := now }
        let ctx : SaveCtx :=
          { isNew := false, modifiedPassword := false, modifiedRole := false,
            modifiedStatus := false, modifiedStore := false,
            skipMiddleware := false }
        match saveUser ctx now u1 with
        | .error e => (.serverError e, db, [])
        | .ok us =>
          (.success us toks, updateById db us,
            [⟨.info, "User logged in successfully", some "LOGIN_SUCCESS", some us.id⟩])

/-! ## PUT /admin/users/:userId (router.use(auth); router.use(requireAdmin)) -/

structure AdminUpdateBody where
  status : Option Status
  role : Option Role
  reason : Option String
deriving DecidableEq, Repr

inductive AdminUpdateRes
  | notAdmin
  | notFound
  | superTargetForbidden
  | superPromoteForbidden
  | updated (user : User)
  | serverError (msg : String)
deriving DecidableEq, Repr

def AdminUpdateRes.statusCode : AdminUpdateRes → Nat
  | .notAdmin => 403
  | .notFound => 404
  | .superTargetForbidden => 403
  | .superPromoteForbidden => 403
  | .updated _ => 200
  | .serverError _ => 500

/-- The empty store sub-document the route creates when activating a
vendor that has none (`userToUpdate.storeDetails = {}` then
`.active = true`). -/
def emptyActiveStore : StoreDetails :=
  ⟨"", "", "", "", "", true⟩

/-- PUT /admin/users/:userId: requireAdmin, 404 on missing target, 403
when touching a superadmin as non-superadmin, 403 when a non-superadmin
requests role 'superadmin'; else apply status (activating a vendor forces
`storeDetails.active = true`, and the route unshifts a history entry with
reason and actor), apply role, and `save()` (which runs the hooks). -/
def adminUpdateUser (actor : ReqUser) (now : Nat) (db : Db) (targetId : Nat)
    (b : AdminUpdateBody) : AdminUpdateRes × Db × List LogEntry :=
  if ¬ isAdminRole actor.role then (.notAdmin, db, [])
  else
    match findById db targetId with
    | none => (.notFound, db, [])
    | some user =>
      if user.role = Role.superadmin ∧ actor.role ≠ Role.superadmin then
        (.superTargetForbidden, db, [])
      else if b.role = some Role.superadmin ∧ actor.role ≠ Role.superadmin then
        (.superPromoteForbidden, db, [])
      else
        let afterStatus : User × Bool × Bool :=
          match b.status with
          | none => (user, false, false)
          | some s =>
            let withStore : User × Bool :=
              if s = Status.active ∧ user.role = Role.vendor then
                match user.storeDetails with
                | none => ({ user with storeDetails := some emptyActiveStore }, true)
                | some sd =>
                  ({ user with storeDetails := some { sd with active := true } },
                    decide (sd.active = false))
              else (user, false)
            let entry : StatusEntry := ⟨s.str, b.reason, now, some actor.id⟩
            let base := withStore.1
            ({ base with status := s, statusHistory := entry :: base.statusHistory },
              decide (s ≠ user.status), withStore.2)
        let u1 := afterStatus.1
        let afterRole : User × Bool :=
          match b.role with
          | none => (u1, false)
          | some r => ({ u1 with role := r }, decide (r ≠ user.role))
        let u2 := afterRole.1
        let ctx : SaveCtx :=
          { isNew := false, modifiedPassword := false,
            modifiedRole := afterRole.2, modifiedStatus := afterStatus.2.1,
            modifiedStore := afterStatus.2.2, skipMiddleware := false }
        match saveUser ctx now u2 with
        | .error e => (.serverError e, db, [])
        | .ok us =>
          (.updated us, updateById db us,
            [⟨.info, "User " ++ us.email ++ " updated by admin",
              some "USER_UPDATE", some actor.id⟩])

/-! ## PUT /admin/promote/:userId -/

inductive PromoteRes
  | notAdmin
  | notFound
  | invalidRole
  | promoted (user : User)
  | serverError (msg : String)
deriving DecidableEq, Repr

def PromoteRes.statusCode : PromoteRes → Nat
  | .notAdmin => 403
  | .notFound => 404
  | .invalidRole => 400
  | .promoted _ => 200
  | .serverError _ => 500

/-- PUT /admin/promote/:userId: requireAdmin, 404 on missing target, 400
unless the requested role is 'admin' or 'superadmin'; else set the role,
`save()` (the hook re-derives permissions when the role changed), then
`findByIdAndUpdate` `$push`es a pseudo history entry at the END of
`statusHistory` (bypassing hooks and validation). No check of the actor's
own role beyond requireAdmin. -/
def promoteUser (actor : ReqUser) (now : Nat) (db : Db) (targetId : Nat)
    (role : Option Role) (reason : Option String) : PromoteRes × Db :=
  if ¬ isAdminRole actor.role then (.notAdmin, db)
  else
    match findById db targetId with
    | none => (.notFound, db)
    | some user =>
      match role with
      | none => (.invalidRole, db)
      | some r =>
        if ¬ (r = Role.admin ∨ r = Role.superadmin) then (.invalidRole, db)
        else
          let u1 := { user with role := r }
          let ctx : SaveCtx :=
            { isNew := false, modifiedPassword := false,
              modifiedRole := decide (r ≠ user.role), modifiedStatus := false,
              modifiedStore := false, skipMiddleware := false }
          match saveUser ctx now u1 with
          | .error e => (.serverError e, db)
          | .ok us =>
            let fallback := "Promoted to " ++ r.str
            let why : String :=
              match reason with
              | none => fallback
              | some s => if s = "" then fallback else s
            let entry : StatusEntry :=
              ⟨"Role changed to " ++ r.str, some why, now, some actor.id⟩
            let pushed := { us with statusHistory := us.statusHistory ++ [entry] }
            (.promoted us, updateById db pushed)

/-! ## PUT /admin/users/:userId/permissions -/

/-- A partial permissions object in the request body. -/
structure PermissionsPatch where
  manageUsers : Option Bool
  manageProducts : Option Bool
  manageOrders : Option Bool
  manageSettings : Option Bool
  promoteUsers : Option Bool
  viewAnalytics : Option Bool
  managePermissions : Option Bool
deriving DecidableEq, Repr

/-- The object-spread merge `{ ...user.permissions, ...req.body.permissions }`. -/
def mergePermissions (base : Permissions) (patch : PermissionsPatch) : Permissions :=
  ⟨patch.manageUsers.getD base.manageUsers,
    patch.manageProducts.getD base.manageProducts,
    patch.manageOrders.getD base.manageOrders,
    patch.manageSettings.getD base.manageSettings,
    patch.promoteUsers.getD base.promoteUsers,
    patch.viewAnalytics.getD base.viewAnalytics,
    patch.managePermissions.getD base.managePermissions⟩

inductive PermUpdateRes
  | notAdmin
  | notFound
  | updated (user : User)
  | serverError (msg : String)
deriving DecidableEq, Repr

/-- PUT /admin/users/:userId/permissions: any admin may overwrite the
stored permission table with an arbitrary patch; the role is not
modified, so the pre-save hook does not re-derive the table. -/
def updatePermissionsRoute (actor : ReqUser) (now : Nat) (db : Db)
    (targetId : Nat) (patch : PermissionsPatch) : PermUpdateRes × Db :=
  if ¬ isAdminRole actor.role then (.notAdmin, db)
  else
    match findById db targetId with
    | none => (.notFound, db)
    | some user =>
      let u1 := { user with permissions := mergePermissions user.permissions patch }
      let ctx : SaveCtx :=
        { isNew := false, modifiedPassword := false, modifiedRole := false,
          modifiedStatus := false, modifiedStore := false,
          skipMiddleware := false }
      match saveUser ctx now u1 with
      | .error e => (.serverError e, db)
      | .ok us => (.updated us, updateById db us)

/-! ## DELETE /auth/users/:userId -/

inductive DeleteRes
  | forbiddenActor
  | notFound
  | forbiddenTarget
  | deleted
  | serverError (msg : String)
deriving DecidableEq, Repr

def DeleteRes.statusCode : DeleteRes → Nat
  | .forbiddenActor => 403
  | .notFound => 404
  | .forbiddenTarget => 403
  | .deleted => 200
  | .serverError _ => 500

/-- Side effects of the delete route, in execution order. -/
inductive DeleteEvent
  | auditWrite (level : LogLevel) (action : String)
  | dbDelete (id : Nat)
deriving DecidableEq, Repr

/-- DELETE /auth/users/:userId: 403 unless the requester is superadmin,
404 on missing target, 403 when the target is a superadmin; otherwise a
warning SystemLog entry is created (awaited) and then the user deleted. -/
def deleteUserRoute (actor : ReqUser) (db : Db) (targetId : Nat) :
    DeleteRes × Db × List DeleteEvent :=
  if actor.role ≠ Role.superadmin then (.forbiddenActor, db, [])
  else
    match findById db targetId with
    | none => (.notFound, db, [])
    | some t =>
      if t.role = Role.superadmin then (.forbiddenTarget, db, [])
      else
        (.deleted, deleteById db targetId,
          [.auditWrite .warning "USER_DELETED", .dbDelete t.id])

/-! ## POST /auth/reset-vendor-password (no auth middleware on the route) -/

inductive ResetRes
  | notFound
  | reset (email : String) (newPassword : String)
  | serverError (msg : String)
deriving DecidableEq, Repr

def ResetRes.statusCode : ResetRes → Nat
  | .notFound => 404
  | .reset _ _ => 200
  | .serverError _ => 500

/-- POST /auth/reset-vendor-password: the handler takes no credential of
any kind — only a request body with an email. It finds the vendor account
with that (lowercased) email, overwrites its password with the bcrypt
hash of the fixed string "Vendor@123", saves, logs, and returns the
plaintext new password in the response body. -/
def resetVendorPassword (now : Nat) (db : Db) (email : String) :
    ResetRes × Db × List LogEntry :=
  match db.find? (fun u => u.email = jsToLower email ∧ u.role = Role.vendor) with
  | none => (.notFound, db, [])
  | some u =>
    let u1 := { u with password := bcryptHash "Vendor@123" }
    let ctx : SaveCtx :=
      { isNew := false, modifiedPassword := decide (u1.password ≠ u.password),
        modifiedRole := false, modifiedStatus := false,
        modifiedStore := false, skipMiddleware := false }
    match saveUser ctx now u1 with
    | .error e => (.serverError e, db, [])
    | .ok us =>
      (.reset us.email "Vendor@123", updateById db us,
        [⟨.info, "Vendor password reset", some "PASSWORD_RESET", some us.id⟩])

/-! ## Helper lemmas about the save pipeline -/

theorem hashStep_parts (ctx : SaveCtx) (u : User) :
    (hashStep ctx u).1.role = u.role ∧
      (hashStep ctx u).1.storeDetails = u.storeDetails ∧
      (hashStep ctx u).1.status = u.status ∧
      (hashStep ctx u).1.statusHistory = u.statusHistory ∧
      (hashStep ctx u).1.permissions = u.permissions ∧
      (hashStep ctx u).1.email = u.email ∧ (hashStep ctx u).1.id = u.id := by
  unfold hashStep
  split_ifs <;> simp

/-- With the password path unmodified, the hook neither hashes nor
returns early. -/
theorem hashStep_not_modified {ctx : SaveCtx} (hmp : ctx.modifiedPassword = false)
    (u : User) : hashStep ctx u = (u, false) := by
  unfold hashStep
  rw [hmp]
  simp

theorem roleStep_ok_parts {ctx : SaveCtx} {u v : User} (h : roleStep ctx u = .ok v) :
    v.storeDetails = u.storeDetails ∧ v.status = u.status ∧
      v.statusHistory = u.statusHistory ∧ v.role = u.role ∧
      v.password = u.password ∧ v.email = u.email ∧ v.id = u.id := by
  unfold roleStep at h
  split_ifs at h <;>
    first
      | exact Except.noConfusion h
      | (injection h with h; subst h; simp)

theorem roleStep_ok_permissions {ctx : SaveCtx} {u v : User}
    (hm : ctx.modifiedRole = true) (h : roleStep ctx u = .ok v) :
    v.permissions = rolePermissions u.role := by
  unfold roleStep at h
  split_ifs at h with h1 h2 h3 <;>
    first
      | exact Except.noConfusion h
      | exact absurd (Or.inl hm) h1
      | (injection h with h; subst h; rw [h2])
      | (injection h with h; subst h; rfl)

theorem statusStep_parts (ctx : SaveCtx) (now : Nat) (u : User) :
    (statusStep ctx now u).storeDetails = u.storeDetails ∧
      (statusStep ctx now u).status = u.status ∧
      (statusStep ctx now u).permissions = u.permissions ∧
      (statusStep ctx now u).role = u.role ∧
      (statusStep ctx now u).password = u.password ∧
      (statusStep ctx now u).email = u.email ∧ (statusStep ctx now u).id = u.id := by
  unfold statusStep
  split <;> simp

/-- With `$skipMiddleware` the saved document is exactly the document
handed to `save()` (only the validate hook ran). -/
theorem saveUser_ok_skip {ctx : SaveCtx} {now : Nat} {u v : User}
    (hs : ctx.skipMiddleware = true) (h : saveUser ctx now u = .ok v) : v = u := by
  unfold saveUser at h
  split at h
  · exact absurd h (by simp)
  · rw [hs] at h
    simp at h
    exact h.symm

/-- No step of the pre-save hook touches `storeDetails`. -/
theorem saveUser_ok_storeDetails {ctx : SaveCtx} {now : Nat} {u v : User}
    (h : saveUser ctx now u = .ok v) : v.storeDetails = u.storeDetails := by
  unfold saveUser at h
  split at h
  · exact absurd h (by simp)
  · split at h
    · cases h; rfl
    · split at h
      · injection h with h
        subst h
        exact (hashStep_parts ctx u).2.1
      · cases hr : roleStep ctx (hashStep ctx u).1 <;> rw [hr] at h
        · exact absurd h (by simp)
        · cases h
          rw [(statusStep_parts ctx now _).1, (roleStep_ok_parts hr).1,
            (hashStep_parts ctx u).2.1]

/-- When the role was modified, middleware not skipped and the password
path unmodified (so the hook cannot return early), the saved document's
permissions are the role-derived table. -/
theorem saveUser_ok_permissions {ctx : SaveCtx} {now : Nat} {u v : User}
    (hs : ctx.skipMiddleware = false) (hmp : ctx.modifiedPassword = false)
    (hm : ctx.modifiedRole = true) (h : saveUser ctx now u = .ok v) :
    v.permissions = rolePermissions u.role ∧ v.role = u.role := by
  unfold saveUser at h
  split at h
  · exact absurd h (by simp)
  · rw [hs] at h
    simp only [if_false, Bool.false_eq_true, hashStep_not_modified hmp] at h
    cases hr : roleStep ctx u <;> rw [hr] at h
    · exact absurd h (by simp)
    · cases h
      refine ⟨?_, ?_⟩
      · rw [(statusStep_parts ctx now _).2.2.1, roleStep_ok_permissions hm hr]
      · rw [(statusStep_parts ctx now _).2.2.2.1, (roleStep_ok_parts hr).2.2.2.1]

theorem statusStep_history_of_modified {ctx : SaveCtx} (hm : ctx.modifiedStatus = true)
    (now : Nat) (u : User) :
    (statusStep ctx now u).statusHistory =
      ⟨u.status.str, none, now, none⟩ :: u.statusHistory := by
  unfold statusStep
  rw [hm]
  simp

/-- When the status was modified, middleware not skipped and the
password path unmodified (so the hook cannot return early before the
status-tracking step), the hook prepends exactly one bare entry (status
string and timestamp only). -/
theorem saveUser_ok_statusTrack {ctx : SaveCtx} {now : Nat} {u v : User}
    (hs : ctx.skipMiddleware = false) (hmp : ctx.modifiedPassword = false)
    (hm : ctx.modifiedStatus = true) (h : saveUser ctx now u = .ok v) :
    v.statusHistory = ⟨u.status.str, none, now, none⟩ :: u.statusHistory ∧
      v.status = u.status := by
  unfold saveUser at h
  split at h
  · exact absurd h (by simp)
  · rw [hs] at h
    simp only [if_false, Bool.false_eq_true, hashStep_not_modified hmp] at h
    cases hr : roleStep ctx u with
    | error e => rw [hr] at h; exact absurd h (by simp)
    | ok u2 =>
      rw [hr] at h
      cases h
      constructor
      · rw [statusStep_history_of_modified hm now u2, (roleStep_ok_parts hr).2.2.1,
          (roleStep_ok_parts hr).2.1]
      · rw [(statusStep_parts ctx now u2).2.1, (roleStep_ok_parts hr).2.1]

/-- A save with no modified paths (e.g. the login route's last-login
update) leaves the document unchanged. -/
theorem saveUser_noop (now : Nat) (u : User) :
    saveUser ⟨false, false, false, false, false, false⟩ now u = .ok u := by
  unfold saveUser preValidate roleStep hashStep statusStep
  simp

/-! ## The role → permission table as the spec states it -/

/-- Transcription of the role → permission table from the specification
(customer all false; vendor manage-products, manage-orders,
view-analytics; admin all but promote-users and manage-permissions;
superadmin all), to compare with the code's `rolePermissions`. -/
def specPermissionTable : Role → Permissions
  | .user => ⟨false, false, false, false, false, false, false⟩
  | .vendor => ⟨false, true, true, false, false, true, false⟩
  | .admin => ⟨true, true, true, true, false, true, false⟩
  | .superadmin => ⟨true, true, true, true, true, true, true⟩

/-- The table the pre-save hook assigns agrees with the table in the
specification, role by role. -/
theorem specPermissionTable_eq_rolePermissions :
    ∀ r, specPermissionTable r = rolePermissions r := by
  intro r
  cases r <;> rfl

/-! ## Concrete fixtures for counterexamples and witnesses -/

def acmeStore : StoreDetails := ⟨"Acme", "Desc", "Addr", "123", "", false⟩

def acmeRegisterInput : RegisterInput :=
  ⟨"Acme Pharmacy", "acme@x.com", "secret1", .vendor,
    some ⟨"Acme", "Desc", "Addr", "123", none⟩⟩

/-- A pending vendor account, exactly as POST /auth/register creates it
from `acmeRegisterInput`. -/
def vAcmePending : User :=
  ⟨1, "Acme Pharmacy", "acme@x.com", bcryptHash "secret1", .vendor,
    some acmeStore, Permissions.defaults, .pending, [], 0⟩

/-- A plain customer account. -/
def bobUser : User :=
  ⟨2, "Bob", "bob@x.com", bcryptHash "bobpw1", .user, none,
    rolePermissions .user, .active, [], 0⟩

/-- An authenticated admin (not superadmin) request identity. -/
def adminGuy : ReqUser := ⟨9, "admin@x.com", .admin⟩

def acmeRegistered : RegisterRes × Db := register "jwtsecret" 0 1 [] acmeRegisterInput

def bobPromoted : PromoteRes × Db :=
  promoteUser adminGuy 100 [bobUser] 2 (some .superadmin) none

def acmeActivateRun : AdminUpdateRes × Db × List LogEntry :=
  adminUpdateUser adminGuy 100 [vAcmePending] 1 ⟨some .active, none, some "approved"⟩

def bobDb : Db := [bobUser]

/-- A request body for the permissions route granting manage-users only. -/
def bobPermPatch : PermissionsPatch :=
  ⟨some true, none, none, none, none, none, none⟩

/-- The admin (not superadmin) actor overwriting bobUser's stored
permission table through PUT /admin/users/:userId/permissions. -/
def bobPermRun : PermUpdateRes × Db :=
  updatePermissionsRoute adminGuy 100 bobDb 2 bobPermPatch

/-! ## Claim C1 -/

/-- C1 (counterexample): two concrete violations. Registering a vendor
(valid input, empty database) succeeds with 201 but stores the all-false
schema-default permission set, not the vendor row of the table — the
register route saves with `$skipMiddleware = true`, which skips the
derivation hook. And an admin (not superadmin) sets a customer's
manage-users flag through PUT /admin/users/:userId/permissions with no
recorded override: the stored table no longer matches the customer row,
so permissions ARE independently settable. -/
theorem C1_counterexample :
    (acmeRegistered.1.statusCode = 201 ∧
      acmeRegistered.2.map (fun u => (u.role, u.permissions)) =
        [(Role.vendor, Permissions.defaults)] ∧
      Permissions.defaults ≠ rolePermissions Role.vendor ∧
      Permissions.defaults ≠ specPermissionTable Role.vendor) ∧
    (adminGuy.role ≠ Role.superadmin ∧
      bobPermRun.2.map (fun u => (u.role, u.permissions)) =
        [(Role.user, ⟨true, false, false, false, false, false, false⟩)] ∧
      (⟨true, false, false, false, false, false, false⟩ : Permissions) ≠
        rolePermissions Role.user ∧
      (⟨true, false, false, false, false, false, false⟩ : Permissions) ≠
        specPermissionTable Role.user) := by
  decide

/-- C1 (amended): the permission set equals the role-derived table only
after a save in which the role field actually changed and middleware was
not skipped — e.g. a successful promotion to a different role; a freshly
registered account skips the derivation hook entirely and keeps the
all-false schema defaults, which match the table for customers but not
for vendors; and permissions ARE independently settable: any admin's
PUT /users/:userId/permissions stores the object-spread merge of the old
table with the request patch, role untouched and no override recorded. -/
theorem C1_amended_role_derivation :
    (∀ (actor : ReqUser) (now : Nat) (db : Db) (tid : Nat) (r : Role)
        (reason : Option String) (t : User) (us : User),
      findById db tid = some t → r ≠ t.role →
      (promoteUser actor now db tid (some r) reason).1 = .promoted us →
      us.permissions = rolePermissions r) ∧
    (∀ (secret : String) (now nid : Nat) (db : Db) (i : RegisterInput)
        (u : User) (toks : Tokens),
      (register secret now nid db i).1 = .created u toks →
      u.permissions = Permissions.defaults) ∧
    (∀ (actor : ReqUser) (now : Nat) (db : Db) (tid : Nat)
        (patch : PermissionsPatch) (t us : User),
      findById db tid = some t →
      (updatePermissionsRoute actor now db tid patch).1 = .updated us →
      us.permissions = mergePermissions t.permissions patch ∧ us.role = t.role) ∧
    specPermissionTable Role.user = Permissions.defaults := by
  refine ⟨?_, ?_, ?_, rfl⟩
  · intro actor now db tid r reason t us ht hr h
    simp only [promoteUser, ht] at h
    split_ifs at h with h1 h2
    split at h
    · simp at h
    · next w hw =>
      simp only at h
      injection h with h
      subst h
      refine (saveUser_ok_permissions rfl rfl ?_ hw).1
      simp [hr]
  · intro secret now nid db i u toks h
    simp only [register] at h
    split_ifs at h
    all_goals (
      split at h
      · simp at h
      · split at h
        · simp at h
        · next w hw =>
          simp only at h
          injection h with h htk
          subst h
          rw [saveUser_ok_skip rfl hw])
  · intro actor now db tid patch t us ht h
    simp only [updatePermissionsRoute, ht, saveUser_noop] at h
    split_ifs at h with h1
    all_goals (
      simp only at h
      injection h with h
      subst h
      exact ⟨rfl, rfl⟩)

/-- The user `PUT /admin/promote` produces when `bobUser` is promoted to
admin: role changed and permissions re-derived by the hook. -/
def bobAdminUser : User :=
  { bobUser with role := .admin, permissions := rolePermissions .admin }

/-- The stored customer after the admin's permissions patch: manage-users
granted independently of the role. -/
def bobPatchedUser : User :=
  ⟨2, "Bob", "bob@x.com", bcryptHash "bobpw1", .user, none,
    ⟨true, false, false, false, false, false, false⟩, .active, [], 0⟩

/-- C1 (witness): the amended claim evaluated on concrete runs — the
promotion of `bobUser` to admin derives the admin table, the vendor
registration of Acme keeps the all-false defaults, and the admin's
permissions patch stores the merged table. -/
theorem C1_amended_role_derivation_witness :
    findById bobDb 2 = some bobUser ∧ Role.admin ≠ bobUser.role ∧
      (promoteUser adminGuy 100 bobDb 2 (some Role.admin) none).1 =
        .promoted bobAdminUser ∧
      bobAdminUser.permissions = rolePermissions Role.admin ∧
      (register "jwtsecret" 0 1 [] acmeRegisterInput).1 =
        .created vAcmePending (generateTokens "jwtsecret" 0 1 "acme@x.com" Role.vendor) ∧
      vAcmePending.permissions = Permissions.defaults ∧
      bobPermRun.1 = .updated bobPatchedUser ∧
      bobPatchedUser.permissions = mergePermissions bobUser.permissions bobPermPatch ∧
      bobPatchedUser.role = bobUser.role :=
  have hperm := C1_amended_role_derivation.2.2.1 adminGuy 100 bobDb 2 bobPermPatch
    bobUser bobPatchedUser (by decide) (by decide)
  ⟨by decide, by decide, by decide,
    C1_amended_role_derivation.1 adminGuy 100 bobDb 2 Role.admin none bobUser
      bobAdminUser (by decide) (by decide) (by decide),
    by decide,
    C1_amended_role_derivation.2.1 "jwtsecret" 0 1 [] acmeRegisterInput vAcmePending
      (generateTokens "jwtsecret" 0 1 "acme@x.com" Role.vendor) (by decide),
    by decide, hperm.1, hperm.2⟩

/-! ## Claim C2 -/

/-- C2 (counterexample): an admin (not superadmin) actor sets a plain
user's role to superadmin through PUT /admin/promote/:userId — the
request succeeds with 200 and the stored role becomes superadmin; no
Forbidden check fires on that route. -/
theorem C2_counterexample :
    adminGuy.role ≠ Role.superadmin ∧
      bobPromoted.1.statusCode = 200 ∧
      bobPromoted.2.map (fun u => u.role) = [Role.superadmin] := by
  decide

/-- C2 (amended): the Forbidden(403) guard against a non-superadmin actor
requesting role superadmin holds on PUT /admin/users/:userId (the request
fails with 403 and the database is unchanged), but PUT
/admin/promote/:userId carries no such guard. -/
theorem C2_amended_users_route_guard (actor : ReqUser) (now : Nat) (db : Db)
    (tid : Nat) (b : AdminUpdateBody) (t : User)
    (ha : actor.role ≠ Role.superadmin) (hr : b.role = some Role.superadmin)
    (ht : findById db tid = some t) :
    (adminUpdateUser actor now db tid b).1.statusCode = 403 ∧
      (adminUpdateUser actor now db tid b).2.1 = db := by
  cases hA : isAdminRole actor.role with
  | false => simp [adminUpdateUser, hA, AdminUpdateRes.statusCode]
  | true =>
    by_cases h2 : t.role = Role.superadmin
    · simp [adminUpdateUser, hA, ht, h2, ha, AdminUpdateRes.statusCode]
    · simp [adminUpdateUser, hA, ht, h2, ha, hr, AdminUpdateRes.statusCode]

/-- C2 (witness): the amended guard evaluated concretely — an admin actor
asking the users route to set bobUser's role to superadmin gets 403 and
the database is unchanged. -/
theorem C2_amended_users_route_guard_witness :
    adminGuy.role ≠ Role.superadmin ∧
      findById bobDb 2 = some bobUser ∧
      (adminUpdateUser adminGuy 100 bobDb 2 ⟨none, some Role.superadmin, none⟩).1.statusCode = 403 ∧
      (adminUpdateUser adminGuy 100 bobDb 2 ⟨none, some Role.superadmin, none⟩).2.1 = bobDb :=
  ⟨by decide, by decide,
    (C2_amended_users_route_guard adminGuy 100 bobDb 2 ⟨none, some Role.superadmin, none⟩
      bobUser (by decide) rfl (by decide)).1,
    (C2_amended_users_route_guard adminGuy 100 bobDb 2 ⟨none, some Role.superadmin, none⟩
      bobUser (by decide) rfl (by decide)).2⟩

/-! ## Claim C3 -/

/-- C3 (counterexample): activating the pending Acme vendor through the
admin update route succeeds (200) and adds TWO entries to its empty
status history — the route's own unshift plus the pre-save hook's — not
exactly one. -/
theorem C3_counterexample :
    vAcmePending.statusHistory.length = 0 ∧
      acmeActivateRun.1.statusCode = 200 ∧
      acmeActivateRun.2.1.map (fun u => u.statusHistory.length) = [2] := by
  decide

/-- C3 (amended): a status change through a plain `save()` whose hook
reaches the status-tracking step (middleware not skipped, password not
also modified — the password branch's early return would abort the hook
first) prepends exactly one bare hook entry; but an admin status change
through PUT /admin/users/:userId prepends its own entry (reason, actor)
and then the hook's bare entry, so exactly two entries are added, newest
first. -/
theorem C3_amended_two_entries (actor : ReqUser) (now : Nat) (db : Db) (tid : Nat)
    (s : Status) (reason : Option String) (t us : User)
    (ht : findById db tid = some t) (hs : s ≠ t.status)
    (h : (adminUpdateUser actor now db tid ⟨some s, none, reason⟩).1 = .updated us) :
    us.statusHistory =
      ⟨s.str, none, now, none⟩ :: ⟨s.str, reason, now, some actor.id⟩ :: t.statusHistory ∧
    (∀ (ctx : SaveCtx) (m : Nat) (u v : User), ctx.skipMiddleware = false →
      ctx.modifiedPassword = false → ctx.modifiedStatus = true →
      saveUser ctx m u = .ok v →
      v.statusHistory = ⟨u.status.str, none, m, none⟩ :: u.statusHistory) := by
  refine ⟨?_, fun ctx m u v h1 h2 h3 h4 => (saveUser_ok_statusTrack h1 h2 h3 h4).1⟩
  cases hsd : t.storeDetails <;>
    simp only [adminUpdateUser, ht, hsd] at h <;>
    split_ifs at h <;>
    (split at h <;>
      first
        | (simp at h; done)
        | (rename_i w hw
           simp only at h
           injection h with h
           subst h
           have hh := saveUser_ok_statusTrack rfl rfl (by simp [hs]) hw
           rw [hh.1]
           try rfl))

/-- The Acme vendor exactly as the admin activation run stores it: status
active, store forced active, and TWO prepended history entries. -/
def acmeActivated : User :=
  ⟨1, "Acme Pharmacy", "acme@x.com", bcryptHash "secret1", .vendor,
    some ⟨"Acme", "Desc", "Addr", "123", "", true⟩,
    Permissions.defaults, .active,
    [⟨"active", none, 100, none⟩, ⟨"active", some "approved", 100, some 9⟩], 0⟩

/-- C3 (witness): the amended claim evaluated on the concrete activation
of the pending Acme vendor. -/
theorem C3_amended_two_entries_witness :
    findById [vAcmePending] 1 = some vAcmePending ∧
      Status.active ≠ vAcmePending.status ∧
      acmeActivateRun.1 = .updated acmeActivated ∧
      acmeActivated.statusHistory =
        ⟨Status.active.str, none, 100, none⟩ ::
          ⟨Status.active.str, some "approved", 100, some adminGuy.id⟩ ::
            vAcmePending.statusHistory :=
  ⟨by decide, by decide, by decide,
    (C3_amended_two_entries adminGuy 100 [vAcmePending] 1 .active (some "approved")
      vAcmePending acmeActivated (by decide) (by decide) (by decide)).1⟩

/-! ## Claim C4 -/

/-- C4: a successful vendor registration stores status pending with an
inactive store; and on login of a vendor (correct password, expected role
vendor) the pending-approval gate is checked first (403), then the
store-activation gate (403), and login succeeds only when status is
active and the store is active. -/
theorem C4_vendor_registration_and_login_gates :
    (∀ (secret : String) (now nid : Nat) (db : Db) (i : RegisterInput)
        (u : User) (toks : Tokens),
      i.role = Role.vendor →
      (register secret now nid db i).1 = .created u toks →
      u.status = Status.pending ∧ storeActive u = false) ∧
    (∀ (secret : String) (now : Nat) (db : Db) (i : LoginInput) (u : User),
      findByEmail db i.email = some u → u.role = Role.vendor →
      i.role = some Role.vendor → bcryptCompare i.password u.password = true →
      ((u.status ≠ Status.active →
          (login secret now db i).1 = .vendorPending u.status ∧
            (loginResponse (login secret now db i).1).1 = 403) ∧
        (u.status = Status.active → storeActive u = false →
          (login secret now db i).1 = .storeInactive ∧
            (loginResponse (login secret now db i).1).1 = 403) ∧
        (u.status = Status.active → storeActive u = true →
          ∃ us tk, (login secret now db i).1 = .success us tk))) := by
  constructor
  · intro secret now nid db i u toks hv h
    simp only [register] at h
    split_ifs at h
    all_goals (
      split at h
      · simp at h
      · split at h
        · simp at h
        · rename_i w hw
          simp only at h
          injection h with h htk
          subst h
          rw [saveUser_ok_skip rfl hw]
          cases hio : i.storeDetails <;> simp_all [storeActive])
  · intro secret now db i u hf hv hrole hpw
    refine ⟨?_, ?_, ?_⟩
    · intro hst
      simp [login, hf, hrole, hv, hpw, hst, loginResponse]
    · intro hsa hsi
      simp [login, hf, hrole, hv, hpw, hsa, hsi, loginResponse]
    · intro hsa hsi
      simp only [login, hf, hrole, hv, hpw, hsa, hsi, saveUser_noop]
      simp [hv, hsa, hsi]

/-- C4 (witness): the registration and the first login gate evaluated on
the concrete Acme vendor. -/
theorem C4_vendor_registration_and_login_gates_witness :
    acmeRegisterInput.role = Role.vendor ∧
      (register "jwtsecret" 0 1 [] acmeRegisterInput).1 =
        .created vAcmePending (generateTokens "jwtsecret" 0 1 "acme@x.com" Role.vendor) ∧
      vAcmePending.status = Status.pending ∧ storeActive vAcmePending = false ∧
      findByEmail [vAcmePending] "acme@x.com" = some vAcmePending ∧
      bcryptCompare "secret1" vAcmePending.password = true ∧
      vAcmePending.status ≠ Status.active ∧
      (login "jwtsecret" 0 [vAcmePending]
          ⟨"acme@x.com", "secret1", some Role.vendor⟩).1 =
        .vendorPending vAcmePending.status :=
  have ha := C4_vendor_registration_and_login_gates.1 "jwtsecret" 0 1 [] acmeRegisterInput
    vAcmePending (generateTokens "jwtsecret" 0 1 "acme@x.com" Role.vendor) rfl (by decide)
  have hb := (C4_vendor_registration_and_login_gates.2 "jwtsecret" 0 [vAcmePending]
    ⟨"acme@x.com", "secret1", some Role.vendor⟩ vAcmePending (by decide) (by decide) rfl
    (by decide)).1 (by decide)
  ⟨rfl, by decide, ha.1, ha.2, by decide, by decide, by decide, hb.1⟩

/-! ## Claim C5 -/

/-- C5 (counterexample): with one stored customer, the two failed logins
— unknown email vs wrong password for an existing email — both return
400 but with DIFFERENT messages, so they are externally distinguishable,
contrary to the claim of one identical generic response. -/
theorem C5_counterexample :
    loginResponse (login "s" 0 bobDb ⟨"ghost@x.com", "bobpw1", none⟩).1 =
        (400, "Account not found with this email") ∧
      loginResponse (login "s" 0 bobDb ⟨"bob@x.com", "wrongpw", none⟩).1 =
        (400, "Invalid password") ∧
      ("Account not found with this email" : String) ≠ "Invalid password" := by
  decide

/-- C5 (amended): both failure kinds return HTTP 400, but each with its
own message ("Account not found with this email" vs "Invalid password"),
so an external caller can distinguish account-not-found from
bad-password. -/
theorem C5_amended_distinct_messages (secret : String) (now : Nat) (db : Db)
    (i : LoginInput) :
    (findByEmail db i.email = none →
      loginResponse (login secret now db i).1 =
        (400, "Account not found with this email")) ∧
    (∀ u, findByEmail db i.email = some u → i.role = none →
      bcryptCompare i.password u.password = false →
      loginResponse (login secret now db i).1 = (400, "Invalid password")) ∧
    ("Account not found with this email" : String) ≠ "Invalid password" := by
  refine ⟨?_, ?_, by decide⟩
  · intro hf
    simp [login, hf, loginResponse]
  · intro u hf hrole hpw
    simp [login, hf, hrole, hpw, loginResponse]

/-- C5 (witness): the amended statement evaluated on the concrete
database with one customer. -/
theorem C5_amended_distinct_messages_witness :
    findByEmail bobDb "ghost@x.com" = none ∧
      loginResponse (login "s" 0 bobDb ⟨"ghost@x.com", "bobpw1", none⟩).1 =
        (400, "Account not found with this email") ∧
      findByEmail bobDb "bob@x.com" = some bobUser ∧
      bcryptCompare "wrongpw" bobUser.password = false ∧
      loginResponse (login "s" 0 bobDb ⟨"bob@x.com", "wrongpw", none⟩).1 =
        (400, "Invalid password") :=
  ⟨by decide,
    (C5_amended_distinct_messages "s" 0 bobDb ⟨"ghost@x.com", "bobpw1", none⟩).1 (by decide),
    by decide, by decide,
    (C5_amended_distinct_messages "s" 0 bobDb ⟨"bob@x.com", "wrongpw", none⟩).2.1 bobUser
      (by decide) rfl (by decide)⟩

/-! ## Claim C6 -/

/-- C6: deleteAccount fails with 403 (database untouched) unless the
actor is superadmin; any request whose target is a superadmin fails with
403 leaving the database unchanged; and a permitted deletion first writes
the warning audit entry and then deletes — in that order. -/
theorem C6_delete_guards (actor : ReqUser) (db : Db) (tid : Nat) :
    (actor.role ≠ Role.superadmin →
      deleteUserRoute actor db tid = (.forbiddenActor, db, []) ∧
        DeleteRes.statusCode .forbiddenActor = 403) ∧
    (∀ t, findById db tid = some t → t.role = Role.superadmin →
      (deleteUserRoute actor db tid).1.statusCode = 403 ∧
        (deleteUserRoute actor db tid).2.1 = db) ∧
    ((deleteUserRoute actor db tid).1 = .deleted →
      (deleteUserRoute actor db tid).2.2 =
        [.auditWrite .warning "USER_DELETED", .dbDelete tid]) := by
  refine ⟨?_, ?_, ?_⟩
  · intro ha
    simp [deleteUserRoute, ha, DeleteRes.statusCode]
  · intro t ht hr
    by_cases ha : actor.role = Role.superadmin
    · simp [deleteUserRoute, ha, ht, hr, DeleteRes.statusCode]
    · simp [deleteUserRoute, ha, DeleteRes.statusCode]
  · intro h
    by_cases ha : actor.role = Role.superadmin
    · simp only [deleteUserRoute, ha] at h ⊢
      cases ht : findById db tid with
      | none => simp [ht] at h
      | some t =>
        simp only [ht] at h ⊢
        by_cases hr : t.role = Role.superadmin
        · simp [hr] at h
        · have hid : t.id = tid := by
            have h2 := ht
            unfold findById at h2
            have h3 := List.find?_some h2
            simpa using h3
          simp [hr, hid]
    · simp [deleteUserRoute, ha] at h

/-- C6 (witness): the guards evaluated concretely — an admin (not
superadmin) actor is refused, a superadmin target survives, and a
permitted deletion traces audit-then-delete. -/
theorem C6_delete_guards_witness :
    adminGuy.role ≠ Role.superadmin ∧
      deleteUserRoute adminGuy bobDb 2 = (.forbiddenActor, bobDb, []) ∧
      (deleteUserRoute ⟨8, "root@x.com", Role.superadmin⟩ bobDb 2).1 = .deleted ∧
      (deleteUserRoute ⟨8, "root@x.com", Role.superadmin⟩ bobDb 2).2.2 =
        [.auditWrite .warning "USER_DELETED", .dbDelete 2] :=
  ⟨by decide,
    ((C6_delete_guards adminGuy bobDb 2).1 (by decide)).1,
    by decide,
    (C6_delete_guards ⟨8, "root@x.com", Role.superadmin⟩ bobDb 2).2.2 (by decide)⟩

/-! ## Claim C7 -/

/-- C7: whenever an admin update that sets status to active on a vendor
target succeeds, the stored account's store profile is active — the
route forces `storeDetails.active = true`. -/
theorem C7_vendor_activation_store (actor : ReqUser) (now : Nat) (db : Db)
    (tid : Nat) (b : AdminUpdateBody) (t us : User)
    (ht : findById db tid = some t) (hv : t.role = Role.vendor)
    (hs : b.status = some Status.active)
    (h : (adminUpdateUser actor now db tid b).1 = .updated us) :
    storeActive us = true := by
  cases hsd : t.storeDetails <;> cases hbr : b.role <;>
    (simp only [adminUpdateUser, ht] at h
     split_ifs at h <;> try (simp at h; done)
     simp only [hs, hsd, hv, hbr] at h
     try simp only [eq_self_iff_true, and_self, if_true] at h
     split at h <;>
       first
         | (simp at h; done)
         | (rename_i w hw
            simp only at h
            injection h with h
            subst h
            have hws := saveUser_ok_storeDetails hw
            simp [storeActive, hws, emptyActiveStore]))

/-- C7 (witness): the activation of the concrete pending Acme vendor
results in an active store. -/
theorem C7_vendor_activation_store_witness :
    findById [vAcmePending] 1 = some vAcmePending ∧
      vAcmePending.role = Role.vendor ∧
      acmeActivateRun.1 = .updated acmeActivated ∧
      storeActive acmeActivated = true :=
  ⟨by decide, by decide, by decide,
    C7_vendor_activation_store adminGuy 100 [vAcmePending] 1
      ⟨some .active, none, some "approved"⟩ vAcmePending acmeActivated
      (by decide) (by decide) rfl (by decide)⟩

/-! ## Claim C8 -/

/-- C8: `requirePermission` passes for superadmin regardless of the
stored table; otherwise it passes exactly when the stored boolean for
that permission is true, and on failure returns 403 carrying the missing
permission name; in particular manage-users passes for superadmin and
fails for a customer with the customer table. -/
theorem C8_requirePermission_behavior :
    (∀ (u : PermReqUser) (p : Permission), u.role = Role.superadmin →
      requirePermission p (some u) = .pass) ∧
    (∀ (u : PermReqUser) (p : Permission) (tbl : Permissions),
      u.permissions = some tbl → u.role ≠ Role.superadmin →
      ((requirePermission p (some u) = .pass ↔ tbl.get p = true) ∧
        (tbl.get p = false →
          requirePermission p (some u) = .forbidden p u.role ∧
            PermRes.statusCode (.forbidden p u.role) = 403))) ∧
    (∀ (i : Nat) (tbl : Permissions),
      requirePermission .manageUsers (some ⟨i, Role.superadmin, some tbl⟩) = .pass) ∧
    (∀ i : Nat,
      requirePermission .manageUsers
          (some ⟨i, Role.user, some (rolePermissions Role.user)⟩) =
        .forbidden .manageUsers Role.user) := by
  refine ⟨?_, ?_, ?_, ?_⟩
  · intro u p hsu
    simp [requirePermission, hsu]
  · intro u p tbl htbl hnsu
    by_cases hg : tbl.get p = true
    · refine ⟨?_, ?_⟩
      · simp [requirePermission, htbl, hnsu, hg]
      · intro hg2
        rw [hg] at hg2
        cases hg2
    · have hg2 : tbl.get p = false := by
        simpa using hg
      refine ⟨?_, fun _ => ⟨?_, rfl⟩⟩
      · simp [requirePermission, htbl, hnsu, hg2]
      · simp [requirePermission, htbl, hnsu, hg2]
  · intro i tbl
    simp [requirePermission]
  · intro i
    simp [requirePermission, rolePermissions, Permissions.get]

/-- C8 (witness): the behavior evaluated at a superadmin whose stored
table is all false (still passes) and a customer (fails with the missing
permission name). -/
theorem C8_requirePermission_behavior_witness :
    (⟨7, Role.superadmin, some Permissions.defaults⟩ : PermReqUser).role =
        Role.superadmin ∧
      requirePermission .manageUsers
          (some ⟨7, Role.superadmin, some Permissions.defaults⟩) = .pass ∧
      (rolePermissions Role.user).get .manageUsers = false ∧
      requirePermission .manageUsers
          (some ⟨2, Role.user, some (rolePermissions Role.user)⟩) =
        .forbidden .manageUsers Role.user :=
  ⟨rfl,
    C8_requirePermission_behavior.1 ⟨7, Role.superadmin, some Permissions.defaults⟩
      .manageUsers rfl,
    by decide,
    ((C8_requirePermission_behavior.2.1 ⟨2, Role.user, some (rolePermissions Role.user)⟩
        .manageUsers (rolePermissions Role.user) rfl (by decide)).2 (by decide)).1⟩

/-! ## Claim C9 -/

/-- C9: an access token issued with the 1-hour expiry fails verification
with the expired error at any clock 3600 s or more after issuance (in
particular at 1 h + 1 s), and the middleware then answers 401 "Token has
expired" with `needsRefresh: true`; a token failing the signature check
yields 401 "Token is not valid" with `needsRefresh: false`; and
`needsRefresh: true` occurs ONLY on the expired path. -/
theorem C9_token_expiry (secret : String) (now delta : Nat) (uid : Nat)
    (email : String) (role : Role) (db : Db) (hd : 3600 ≤ delta) :
    (verifyAccess secret (now + delta)
        (generateTokens secret now uid email role).accessToken = .error .expired) ∧
    (authMiddleware secret (now + delta) db
        (some (generateTokens secret now uid email role).accessToken) =
      .error ⟨401, "Token has expired", true⟩) ∧
    (∀ (t : SignedAccess) (n : Nat), t.sig ≠ (secret, t.claims) →
      authMiddleware secret n db (some t) =
        .error ⟨401, "Token is not valid", false⟩) ∧
    (∀ (hdr : Option SignedAccess) (f : AuthFailure),
      authMiddleware secret now db hdr = .error f → f.needsRefresh = true →
      f.message = "Token has expired") := by
  have hexp : verifyAccess secret (now + delta)
      (generateTokens secret now uid email role).accessToken = .error .expired := by
    simp only [verifyAccess, generateTokens]
    split_ifs with h1 h2
    · exact absurd rfl h1
    · rfl
    · exact absurd (by omega) h2
  refine ⟨hexp, ?_, ?_, ?_⟩
  · simp [authMiddleware, hexp]
  · intro t n hsig
    simp [authMiddleware, verifyAccess, hsig]
  · intro hdr f hmid hnr
    cases hdr with
    | none =>
      simp only [authMiddleware] at hmid
      injection hmid with hmid
      rw [← hmid] at hnr
      simp at hnr
    | some t =>
      simp only [authMiddleware] at hmid
      cases hver : verifyAccess secret now t with
      | error e =>
        cases e
        · simp only [hver] at hmid
          injection hmid with hmid
          rw [← hmid]
        · simp only [hver] at hmid
          injection hmid with hmid
          rw [← hmid] at hnr
          simp at hnr
      | ok c =>
        simp only [hver] at hmid
        cases hfind : findById db c.userId with
        | none =>
          simp only [hfind] at hmid
          injection hmid with hmid
          rw [← hmid] at hnr
          simp at hnr
        | some w =>
          simp only [hfind] at hmid
          exact Except.noConfusion hmid

/-- C9 (witness): a concrete token issued at time 0 and verified at
3601 s (1 hour + 1 second) is expired with the refresh flag set, and a
concretely forged signature is rejected without the refresh flag. -/
theorem C9_token_expiry_witness :
    (3600 ≤ 3601 ∧
      authMiddleware "jwtsecret" (0 + 3601) []
          (some (generateTokens "jwtsecret" 0 1 "acme@x.com" Role.vendor).accessToken) =
        .error ⟨401, "Token has expired", true⟩) ∧
    ((⟨⟨1, "acme@x.com", Role.vendor, 0, 3600⟩,
        ("wrong", ⟨1, "acme@x.com", Role.vendor, 0, 3600⟩)⟩ : SignedAccess).sig ≠
        ("jwtsecret", (⟨1, "acme@x.com", Role.vendor, 0, 3600⟩ : AccessClaims)) ∧
      authMiddleware "jwtsecret" 50 []
          (some ⟨⟨1, "acme@x.com", Role.vendor, 0, 3600⟩,
            ("wrong", ⟨1, "acme@x.com", Role.vendor, 0, 3600⟩)⟩) =
        .error ⟨401, "Token is not valid", false⟩) :=
  ⟨⟨by decide,
      (C9_token_expiry "jwtsecret" 0 3601 1 "acme@x.com" Role.vendor [] (by decide)).2.1⟩,
    ⟨by decide,
      (C9_token_expiry "jwtsecret" 0 3601 1 "acme@x.com" Role.vendor [] (by decide)).2.2.1
        ⟨⟨1, "acme@x.com", Role.vendor, 0, 3600⟩,
          ("wrong", ⟨1, "acme@x.com", Role.vendor, 0, 3600⟩)⟩ 50 (by decide)⟩⟩

/-! ## Claim C10 -/

/-- A save that only modifies an already-hashed password (it starts with
"$2") changes nothing: the hook returns early without re-hashing. -/
theorem saveUser_password_only (b1 : Bool) (now : Nat) (u : User)
    (hsw : strStartsWith u.password "$2" = true) :
    saveUser ⟨false, b1, false, false, false, false⟩ now u = .ok u := by
  unfold saveUser preValidate roleStep hashStep statusStep
  cases b1 <;> simp [hsw]

/-- C10: for any database in which some vendor account carries the
requested email, the unauthenticated reset route — its handler takes no
token, actor, or proof of ownership — replaces that account's stored
credential with the hash of the fixed string "Vendor@123" and returns
that plaintext in the response. -/
theorem C10_reset_vendor_password (now : Nat) (db : Db) (email : String) (u : User)
    (h : db.find? (fun v => v.email = jsToLower email ∧ v.role = Role.vendor) = some u) :
    (resetVendorPassword now db email).1 = .reset u.email "Vendor@123" ∧
      (resetVendorPassword now db email).2.1 =
        updateById db { u with password := bcryptHash "Vendor@123" } ∧
      ({ u with password := bcryptHash "Vendor@123" } : User).password =
        bcryptHash "Vendor@123" := by
  have hsw : strStartsWith (bcryptHash "Vendor@123") "$2" = true := by decide
  refine ⟨?_, ?_, rfl⟩ <;>
    (unfold resetVendorPassword
     rw [h]
     simp [saveUser_password_only, hsw])

/-- C10 (witness): the concrete Acme vendor's credential is replaced by
the hash of "Vendor@123" and the plaintext is returned. -/
theorem C10_reset_vendor_password_witness :
    ([vAcmePending].find?
        (fun v => v.email = jsToLower "acme@x.com" ∧ v.role = Role.vendor) =
      some vAcmePending) ∧
      (resetVendorPassword 7 [vAcmePending] "acme@x.com").1 =
        .reset vAcmePending.email "Vendor@123" ∧
      (resetVendorPassword 7 [vAcmePending] "acme@x.com").2.1 =
        updateById [vAcmePending]
          { vAcmePending with password := bcryptHash "Vendor@123" } :=
  have hc := C10_reset_vendor_password 7 [vAcmePending] "acme@x.com" vAcmePending (by decide)
  ⟨by decide, hc.1, hc.2.1⟩

end Pharmalink
